import Mathlib

/-!
Shallow embedding of the subscription bot's lifecycle and notification
scheduling engine (database.py and scheduler.py).

Timestamps are modelled as integers (seconds); a Python `timedelta(days, hours,
minutes)` becomes `days * 86400 + hours * 3600 + minutes * 60` seconds.  The
PostgreSQL tables `subscribers`, `notifications` and `logs` become lists inside
a `DBState`; the SERIAL notification id becomes an explicit counter that is
advanced once per inserted row.  External collaborators (the message template
table, the Telegram send call, the channel kick call) are abstracted as
function parameters, since their outcomes are what the scheduler code branches
on.
-/

/-- One row of the `subscribers` table (database.py, `init_database`). -/
structure Subscriber where
  user_id : Int
  username : String
  first_name : String
  last_name : String
  subscription_start : Int
  subscription_end : Int
  status : String
  updated_at : Int
  deriving Repr, DecidableEq

/-- One row of the `notifications` table (database.py, `init_database`). -/
structure Notification where
  id : Nat
  user_id : Int
  notification_type : String
  notification_date : Int
  sent : Bool
  sent_at : Option Int
  deriving Repr, DecidableEq

/-- One row of the `logs` table (database.py, `init_database`). -/
structure LogEntry where
  action : String
  user_id : Int
  details : String
  deriving Repr, DecidableEq

/-- The persistent state of the three tables, plus the next SERIAL id for
`notifications`. -/
structure DBState where
  subscribers : List Subscriber
  notifications : List Notification
  logs : List LogEntry
  next_notif_id : Nat
  deriving Repr, DecidableEq

/-- The interval-bucket selection that appears verbatim (line for line) in both
`Database.add_subscriber` (database.py:164-176) and
`Database.extend_subscription` (database.py:229-242): choose the reminder
offsets and their unit from the total granted duration in minutes.
`extend_subscription` computes `total_minutes` by real division of seconds by
60, so the argument is a rational. -/
def chooseIntervals (total_minutes : ℚ) : List Int × String :=
  if total_minutes ≥ 1440 then ([7, 3, 1, 0], "days")
  else if total_minutes ≥ 60 then ([60, 30, 10, 0], "minutes")
  else ([10, 5, 2, 1, 0], "minutes")

/-- The `for val in intervals` loop of database.py:183-193 (and its verbatim
copy at database.py:249-259): each offset becomes a row only when its due date
is strictly in the future; each inserted row consumes one SERIAL id. -/
def bucketEntries (user_id now subscription_end : Int) (unitTag : String) :
    List Int → Nat → List Notification
  | [], _ => []
  | val :: rest, nid =>
    let notif_date :=
      if unitTag = "days" then subscription_end - val * 86400
      else subscription_end - val * 60
    if notif_date > now then
      { id := nid, user_id := user_id, notification_type := s!"{val}_{unitTag}",
        notification_date := notif_date, sent := false, sent_at := none } ::
        bucketEntries user_id now subscription_end unitTag rest (nid + 1)
    else
      bucketEntries user_id now subscription_end unitTag rest nid

/-- The full planning pass shared verbatim by `add_subscriber`
(database.py:164-193) and `extend_subscription` (database.py:229-259): one
unconditional "5_seconds" row at `subscription_end - 5`, then the bucket rows
filtered by `notif_date > now`. -/
def planNotificationsFor (user_id now subscription_end : Int) (total_minutes : ℚ)
    (nid : Nat) : List Notification :=
  let bucket := chooseIntervals total_minutes
  { id := nid, user_id := user_id, notification_type := "5_seconds",
    notification_date := subscription_end - 5, sent := false, sent_at := none } ::
    bucketEntries user_id now subscription_end bucket.2 bucket.1 (nid + 1)

/-- `Database.add_subscriber` (database.py:126-199): upsert the subscriber row
(ON CONFLICT resets window and status), append an audit log row, delete ALL of
the user's notifications (database.py:161 has no `sent = FALSE` filter), then
insert the fresh planned batch.  Returns the new state and the boolean result. -/
def add_subscriber (db : DBState) (now : Int) (user_id : Int)
    (username first_name last_name : String)
    (days hours minutes : Int) : DBState × Bool :=
  let subscription_end := now + days * 86400 + hours * 3600 + minutes * 60
  let subscribers :=
    if db.subscribers.any (fun r => r.user_id == user_id) then
      db.subscribers.map (fun r =>
        if r.user_id == user_id then
          { r with
            username := username,
            first_name := first_name,
            last_name := last_name,
            subscription_start := now,
            subscription_end := subscription_end,
            status := "active",
            updated_at := now }
        else r)
    else
      db.subscribers ++
        [{ user_id := user_id, username := username, first_name := first_name,
           last_name := last_name, subscription_start := now,
           subscription_end := subscription_end, status := "active",
           updated_at := now }]
  let logs := db.logs ++
    [{ action := "add", user_id := user_id,
       details := s!"Added for {days} days, {hours} hours, and {minutes} minutes" }]
  let kept := db.notifications.filter (fun n => n.user_id != user_id)
  let total_minutes : ℚ := ((days * 1440 + hours * 60 + minutes : Int) : ℚ)
  let fresh := planNotificationsFor user_id now
    (now + days * 86400 + hours * 3600 + minutes * 60) total_minutes db.next_notif_id
  ({ subscribers := subscribers, notifications := kept ++ fresh, logs := logs,
     next_notif_id := db.next_notif_id + fresh.length }, true)

/-- `Database.extend_subscription` (database.py:201-266): look the row up; on a
miss return `false` with nothing changed; on a hit set
`subscription_end := current_end + delta` and `status := 'active'`, append an
audit row, delete only the user's UNSENT notifications (database.py:227), and
replan from `total = new_end - current_start` (seconds divided by 60). -/
def extend_subscription (db : DBState) (now : Int) (user_id : Int)
    (days hours minutes : Int) : DBState × Bool :=
  match db.subscribers.find? (fun r => r.user_id == user_id) with
  | none => (db, false)
  | some row =>
    let new_end := row.subscription_end + days * 86400 + hours * 3600 + minutes * 60
    let subscribers := db.subscribers.map (fun r =>
      if r.user_id == user_id then
        { r with subscription_end := new_end, status := "active", updated_at := now }
      else r)
    let logs := db.logs ++
      [{ action := "extend", user_id := user_id,
         details := s!"Extended by {days} days, {hours} hours, and {minutes} minutes" }]
    let kept := db.notifications.filter (fun n => !(n.user_id == user_id && n.sent == false))
    let total_minutes : ℚ := ((new_end - row.subscription_start : Int) : ℚ) / 60
    let fresh := planNotificationsFor user_id now new_end total_minutes db.next_notif_id
    ({ subscribers := subscribers, notifications := kept ++ fresh, logs := logs,
       next_notif_id := db.next_notif_id + fresh.length }, true)

/-- `Database.get_subscriber` (database.py:268-278). -/
def get_subscriber (db : DBState) (user_id : Int) : Option Subscriber :=
  db.subscribers.find? (fun r => r.user_id == user_id)

/-- `Database.get_all_subscribers` (database.py:280-292): optional status
filter, ordered by ascending `subscription_end`. -/
def get_all_subscribers (db : DBState) (status : Option String) : List Subscriber :=
  let rows : List Subscriber :=
    match status with
    | some s => db.subscribers.filter (fun r => r.status == s)
    | none => db.subscribers
  rows.mergeSort (fun a b => decide (a.subscription_end ≤ b.subscription_end))

/-- `Database.update_subscriber_status` (database.py:294-308): an UPDATE by
user id; returns `True` whether or not any row matched. -/
def update_subscriber_status (db : DBState) (now : Int) (user_id : Int)
    (status : String) : DBState × Bool :=
  ({ db with subscribers := db.subscribers.map (fun r =>
      if r.user_id == user_id then { r with status := status, updated_at := now }
      else r) }, true)

/-- `Database.remove_subscriber` (database.py:310-321): DELETE the user's
notifications then the subscriber row; returns `True` whether or not any row
matched. -/
def remove_subscriber (db : DBState) (user_id : Int) : DBState × Bool :=
  ({ db with
     notifications := db.notifications.filter (fun n => n.user_id != user_id),
     subscribers := db.subscribers.filter (fun r => r.user_id != user_id) }, true)

/-- The single-row effect of `Database.mark_notification_sent`
(database.py:328-332) on one notification row. -/
def markOne (notification_id : Nat) (now : Int) (n : Notification) : Notification :=
  if n.id == notification_id then { n with sent := true, sent_at := some now }
  else n

/-- `Database.mark_notification_sent` (database.py:323-335): set
`sent = TRUE, sent_at = now` on every row with the given id. -/
def mark_notification_sent (db : DBState) (now : Int) (notification_id : Nat) : DBState :=
  { db with notifications := db.notifications.map (markOne notification_id now) }

/-- `Database.get_pending_notifications` (database.py:337-351): unsent rows
whose due date has arrived, joined against an existing subscriber row. -/
def get_pending_notifications (db : DBState) (now : Int) : List Notification :=
  db.notifications.filter (fun n =>
    n.sent == false && decide (n.notification_date ≤ now) &&
      db.subscribers.any (fun r => r.user_id == n.user_id))

/-- Whether `NotificationScheduler.check_notifications` can resolve a message
for a notification type (scheduler.py:65-76): either the type has a template in
the config table (abstracted as the predicate `known`, since config.py holds
only the template text), or it matches the legacy zero-offset fallback;
otherwise the entry is skipped. -/
def resolvable (known : String → Bool) (t : String) : Bool :=
  known t || t == "0_days" || t == "0_minutes"

/-- One iteration of the loop in `NotificationScheduler.check_notifications`
(scheduler.py:51-91) on a pending notification: skip if the subscriber row is
gone; skip if no template resolves; otherwise attempt delivery (`sendOk` is the
outcome of `bot.send_message` by notification id — `false` models a throw,
which the loop catches) and mark the entry sent only after a successful send.
Returns the updated state and the delivered notification id, if any. -/
def deliverStep (known : String → Bool) (sendOk : Nat → Bool) (now : Int)
    (st : DBState) (n : Notification) : DBState × Option Nat :=
  match get_subscriber st n.user_id with
  | none => (st, none)
  | some _ =>
    if resolvable known n.notification_type then
      if sendOk n.id then (mark_notification_sent st now n.id, some n.id)
      else (st, none)
    else (st, none)

/-- The loop of `NotificationScheduler.check_notifications` over the pending
list fetched once at the start; collects the delivered ids in order. -/
def deliverList (known : String → Bool) (sendOk : Nat → Bool) (now : Int) :
    List Notification → DBState → DBState × List Nat
  | [], st => (st, [])
  | n :: rest, st =>
    let step := deliverStep known sendOk now st n
    let res := deliverList known sendOk now rest step.1
    (res.1, step.2.toList ++ res.2)

/-- `NotificationScheduler.check_notifications` (scheduler.py:47-91): fetch the
due-and-unsent entries once, then process each. -/
def check_notifications (db : DBState) (now : Int) (known : String → Bool)
    (sendOk : Nat → Bool) : DBState × List Nat :=
  deliverList known sendOk now (get_pending_notifications db now) db

/-- One iteration of `NotificationScheduler.check_expired_subscriptions`
(scheduler.py:99-135) on an active subscriber: past-due rows trigger
`kick_user_from_channel`; only a `True` outcome flips the status to expired.
`kick` returns `some b` for a reported outcome and `none` for an exception
raised outside the kick helper (caught by the loop's `except`); both non-`some
true` outcomes leave the row untouched. -/
def expiryStep (kick : Int → Option Bool) (now : Int) (st : DBState)
    (sub : Subscriber) : DBState :=
  if sub.subscription_end ≤ now then
    match kick sub.user_id with
    | some true => (update_subscriber_status st now sub.user_id "expired").1
    | _ => st
  else st

/-- `NotificationScheduler.check_expired_subscriptions` (scheduler.py:93-135):
fetch the active subscribers once, then process each. -/
def check_expired_subscriptions (db : DBState) (now : Int)
    (kick : Int → Option Bool) : DBState :=
  (get_all_subscribers db (some "active")).foldl (expiryStep kick now) db

/-- The status recorded for a user, if the user has a row. -/
def statusOf (db : DBState) (user_id : Int) : Option String :=
  (get_subscriber db user_id).map (fun r => r.status)

/-- The effect of one sweep's worth of successful markings on a single
notification row: rows whose id was delivered are flagged sent at `now`,
all others are untouched. -/
def markFn (ds : List Nat) (now : Int) (n : Notification) : Notification :=
  if ds.contains n.id then { n with sent := true, sent_at := some now } else n

/-- An empty store, as right after `init_database`. -/
def dbEmpty : DBState :=
  { subscribers := [], notifications := [], logs := [], next_notif_id := 0 }

/-- A subscriber granted one day starting at time 0, for concrete runs. -/
def subA : Subscriber :=
  { user_id := 42, username := "a", first_name := "b", last_name := "c",
    subscription_start := 0, subscription_end := 86400, status := "active",
    updated_at := 0 }

/-- A store holding just `subA`. -/
def dbA : DBState :=
  { subscribers := [subA], notifications := [], logs := [], next_notif_id := 0 }

/-- An already-sent reminder row belonging to `subA`. -/
def sentNote42 : Notification :=
  { id := 3, user_id := 42, notification_type := "0_days", notification_date := 500,
    sent := true, sent_at := some 500 }

/-- A store where `subA` has one already-sent reminder in its history. -/
def dbB : DBState :=
  { subscribers := [subA], notifications := [sentNote42], logs := [],
    next_notif_id := 4 }

/-- A reminder row already marked sent at time 0. -/
def noteSent : Notification :=
  { id := 0, user_id := 42, notification_type := "0_minutes", notification_date := 10,
    sent := true, sent_at := some 0 }

/-- A store holding just the already-sent row `noteSent`. -/
def dbMarked : DBState :=
  { subscribers := [subA], notifications := [noteSent], logs := [], next_notif_id := 1 }

/-- An active subscriber whose window is already past at time 100. -/
def subExp : Subscriber :=
  { user_id := 5, username := "x", first_name := "y", last_name := "z",
    subscription_start := 0, subscription_end := 50, status := "active",
    updated_at := 0 }

/-- A store holding just `subExp`. -/
def dbExp : DBState :=
  { subscribers := [subExp], notifications := [], logs := [], next_notif_id := 0 }

/-- A revoke call that always reports failure. -/
def kickFail : Int → Option Bool := fun _ => some false

/-- A due, unsent reminder for `subA`. -/
def noteDue : Notification :=
  { id := 0, user_id := 42, notification_type := "0_minutes", notification_date := 90,
    sent := false, sent_at := none }

/-- A store with one due, unsent reminder for `subA`. -/
def dbDue : DBState :=
  { subscribers := [subA], notifications := [noteDue], logs := [], next_notif_id := 1 }

/-- A template table that recognises every kind. -/
def knownAll : String → Bool := fun _ => true

/-- A delivery call that always throws. -/
def sendFail : Nat → Bool := fun _ => false

theorem find?_map_pres {α : Type} (f : α → α) (p : α → Bool)
    (hp : ∀ a, p (f a) = p a) (l : List α) :
    (l.map f).find? p = (l.find? p).map f := by
  induction l with
  | nil => rfl
  | cons a t ih =>
    by_cases h : p a = true
    · rw [List.map_cons, List.find?_cons_of_pos _ ((hp a).trans h),
        List.find?_cons_of_pos _ h, Option.map_some']
    · have h' : p a = false := by
        cases hpa : p a
        · rfl
        · exact absurd hpa h
      rw [List.map_cons,
        List.find?_cons_of_neg _ (by rw [hp a, h']; exact Bool.false_ne_true),
        List.find?_cons_of_neg _ (by rw [h']; exact Bool.false_ne_true), ih]

theorem find?_append_none {α : Type} (p : α → Bool) (l₁ l₂ : List α)
    (h : l₁.find? p = none) : (l₁ ++ l₂).find? p = l₂.find? p := by
  induction l₁ with
  | nil => rfl
  | cons a t ih =>
    have hall := List.find?_eq_none.mp h
    have ha : ¬p a = true := hall a (List.mem_cons_self a t)
    rw [List.cons_append, List.find?_cons_of_neg _ ha]
    exact ih (List.find?_eq_none.mpr fun x hx => hall x (List.mem_cons_of_mem a hx))

theorem mem_bucketEntries {user_id now subscription_end : Int} {u : String}
    {vals : List Int} {nid : Nat} {n : Notification}
    (hn : n ∈ bucketEntries user_id now subscription_end u vals nid) :
    n.user_id = user_id ∧ n.sent = false ∧ now < n.notification_date := by
  induction vals generalizing nid with
  | nil => simp [bucketEntries] at hn
  | cons val rest ih =>
    simp only [bucketEntries] at hn
    split at hn <;>
    · split at hn
      next h =>
        rcases List.mem_cons.mp hn with rfl | hmem
        · exact ⟨rfl, rfl, h⟩
        · exact ih hmem
      next => exact ih hn

theorem mem_planNotificationsFor {user_id now subscription_end : Int} {t : ℚ}
    {nid : Nat} {n : Notification}
    (hn : n ∈ planNotificationsFor user_id now subscription_end t nid) :
    n.user_id = user_id ∧ n.sent = false ∧
      (n.notification_date = subscription_end - 5 ∨ now < n.notification_date) := by
  simp only [planNotificationsFor] at hn
  rcases List.mem_cons.mp hn with rfl | hmem
  · exact ⟨rfl, rfl, Or.inl rfl⟩
  · obtain ⟨h1, h2, h3⟩ := mem_bucketEntries hmem
    exact ⟨h1, h2, Or.inr h3⟩

theorem planNotificationsFor_no_sent (user_id now subscription_end : Int) (t : ℚ)
    (nid : Nat) :
    (planNotificationsFor user_id now subscription_end t nid).filter
      (fun n => n.sent) = [] := by
  rw [List.filter_eq_nil_iff]
  intro n hn
  simp [(mem_planNotificationsFor hn).2.1]

theorem planNotificationsFor_own_user (user_id now subscription_end : Int) (t : ℚ)
    (nid : Nat) :
    (planNotificationsFor user_id now subscription_end t nid).filter
      (fun n => n.user_id != user_id) = [] := by
  rw [List.filter_eq_nil_iff]
  intro n hn
  simp [(mem_planNotificationsFor hn).1]

theorem get_subscriber_after_add (db : DBState) (now user_id : Int)
    (username first_name last_name : String) (days hours minutes : Int) :
    get_subscriber (add_subscriber db now user_id username first_name last_name
        days hours minutes).1 user_id =
      some { user_id := user_id, username := username, first_name := first_name,
             last_name := last_name, subscription_start := now,
             subscription_end := now + days * 86400 + hours * 3600 + minutes * 60,
             status := "active", updated_at := now } := by
  unfold get_subscriber add_subscriber
  dsimp only
  by_cases hex : db.subscribers.any (fun r => r.user_id == user_id) = true
  · rw [if_pos hex]
    rw [find?_map_pres _ _ (fun r => by by_cases h : r.user_id == user_id <;> simp [h])]
    cases hr1 : db.subscribers.find? (fun r => r.user_id == user_id) with
    | none =>
      exfalso
      obtain ⟨r0, hr0mem, hr0⟩ := List.any_eq_true.mp hex
      exact (List.find?_eq_none.mp hr1 r0 hr0mem) hr0
    | some r1 =>
      rw [Option.map_some']
      have hp1 := List.find?_some hr1
      rw [if_pos hp1]
      have heq : r1.user_id = user_id := by simpa using hp1
      cases r1
      simp_all
  · rw [if_neg hex]
    have hnone : db.subscribers.find? (fun r => r.user_id == user_id) = none := by
      rw [List.find?_eq_none]
      intro x hx hpx
      exact hex (List.any_eq_true.mpr ⟨x, hx, hpx⟩)
    rw [find?_append_none _ _ _ hnone, List.find?_cons_of_pos _ (by simp)]

/-- C6: bucket selection is by total granted duration in fixed priority order:
a total of at least 1440 minutes selects the day-based offsets [7, 3, 1, 0]; a
total of at least 60 but under 1440 minutes (for instance 1439) selects the
minute-based offsets [60, 30, 10, 0]; a total under 60 minutes selects
[10, 5, 2, 1, 0] minutes. -/
theorem bucket_selection_by_total_duration (t : ℚ) :
    (1440 ≤ t → chooseIntervals t = ([7, 3, 1, 0], "days")) ∧
    (60 ≤ t → t < 1440 → chooseIntervals t = ([60, 30, 10, 0], "minutes")) ∧
    (t < 60 → chooseIntervals t = ([10, 5, 2, 1, 0], "minutes")) := by
  unfold chooseIntervals
  refine ⟨fun h => ?_, fun h1 h2 => ?_, fun h => ?_⟩
  · rw [if_pos h]
  · rw [if_neg (not_le.mpr h2), if_pos h1]
  · rw [if_neg (not_le.mpr (h.trans (by norm_num))), if_neg (not_le.mpr h)]

/-- C6 witness: the boundary totals 1440 and 1439 pick the day bucket and the
minute bucket respectively. -/
theorem bucket_selection_by_total_duration_witness :
    chooseIntervals 1440 = ([7, 3, 1, 0], "days") ∧
    chooseIntervals 1439 = ([60, 30, 10, 0], "minutes") :=
  ⟨(bucket_selection_by_total_duration 1440).1 (by norm_num),
   (bucket_selection_by_total_duration 1439).2.1 (by norm_num) (by norm_num)⟩

/-- C7: extending an unknown subscriber returns `false` and leaves the whole
store (subscribers, notifications, logs) unchanged, without raising. -/
theorem extend_unknown_returns_false (db : DBState) (now user_id : Int)
    (days hours minutes : Int)
    (h : db.subscribers.find? (fun r => r.user_id == user_id) = none) :
    extend_subscription db now user_id days hours minutes = (db, false) := by
  unfold extend_subscription
  rw [h]

/-- C7 witness: extending user 7 in the empty store fails cleanly. -/
theorem extend_unknown_returns_false_witness :
    dbEmpty.subscribers.find? (fun r => r.user_id == 7) = none ∧
    extend_subscription dbEmpty 100 7 1 0 0 = (dbEmpty, false) :=
  ⟨by decide, extend_unknown_returns_false dbEmpty 100 7 1 0 0 (by decide)⟩

/-- C10: `update_subscriber_status` and `remove_subscriber` report success
regardless of whether any row matched; for an unknown id they leave the
subscriber table unchanged, while `extend_subscription` on the same unknown id
reports failure. -/
theorem manage_unknown_reports_success (db : DBState) (now user_id : Int)
    (status : String) (days hours minutes : Int) :
    (update_subscriber_status db now user_id status).2 = true ∧
    (remove_subscriber db user_id).2 = true ∧
    (db.subscribers.find? (fun r => r.user_id == user_id) = none →
      (update_subscriber_status db now user_id status).1 = db ∧
      (remove_subscriber db user_id).1.subscribers = db.subscribers ∧
      extend_subscription db now user_id days hours minutes = (db, false)) := by
  refine ⟨rfl, rfl, fun hf => ⟨?_, ?_, ?_⟩⟩
  · have hall := List.find?_eq_none.mp hf
    unfold update_subscriber_status
    have hmap : db.subscribers.map (fun r =>
        if r.user_id == user_id then { r with status := status, updated_at := now }
        else r) = db.subscribers := by
      conv_rhs => rw [← List.map_id db.subscribers]
      apply List.map_congr_left
      intro a ha
      rw [if_neg (hall a ha)]
      rfl
    rw [hmap]
  · unfold remove_subscriber
    dsimp only
    rw [List.filter_eq_self.mpr]
    intro a ha
    have := List.find?_eq_none.mp hf a ha
    simp only [bne_iff_ne, ne_eq]
    intro hcon
    exact this (by simp [hcon])
  · unfold extend_subscription
    rw [hf]

/-- C10 witness: managing unknown user 7 in the empty store succeeds while
extend fails. -/
theorem manage_unknown_reports_success_witness :
    dbEmpty.subscribers.find? (fun r => r.user_id == 7) = none ∧
    ((update_subscriber_status dbEmpty 100 7 "expired").1 = dbEmpty ∧
      (remove_subscriber dbEmpty 7).1.subscribers = dbEmpty.subscribers ∧
      extend_subscription dbEmpty 100 7 1 0 0 = (dbEmpty, false)) :=
  ⟨by decide, (manage_unknown_reports_success dbEmpty 100 7 "expired" 1 0 0).2.2 (by decide)⟩

/-- C9 counterexample: `add_subscriber` accepts days = hours = minutes = 0 and
creates a row with `subscription_end` equal to `subscription_start`, so the
claimed invariant validUntil > validFrom fails at this input. -/
theorem grant_zero_duration_window :
    get_subscriber (add_subscriber dbEmpty 1000 42 "u" "f" "l" 0 0 0).1 42 =
      some { user_id := 42, username := "u", first_name := "f", last_name := "l",
             subscription_start := 1000, subscription_end := 1000,
             status := "active", updated_at := 1000 } ∧
    ¬((1000 : Int) < 1000) := ⟨by decide, by decide⟩

/-- C9 (amended): whenever the granted total duration is positive (at least one
minute, the granularity of the operation), the created row satisfies
`subscription_start < subscription_end`, with the window anchored at `now`. -/
theorem grant_pos_duration_window (db : DBState) (now user_id : Int)
    (username first_name last_name : String) (days hours minutes : Int)
    (h : 0 < days * 1440 + hours * 60 + minutes) :
    ∃ row, get_subscriber (add_subscriber db now user_id username first_name
        last_name days hours minutes).1 user_id = some row ∧
      row.subscription_start = now ∧
      row.subscription_end = now + days * 86400 + hours * 3600 + minutes * 60 ∧
      row.subscription_start < row.subscription_end := by
  refine ⟨_, get_subscriber_after_add db now user_id username first_name last_name
    days hours minutes, rfl, rfl, ?_⟩
  dsimp only
  omega

/-- C9 witness: a three-minute grant yields a strictly positive window. -/
theorem grant_pos_duration_window_witness :
    (0 : Int) < 0 * 1440 + 0 * 60 + 3 ∧
    ∃ row, get_subscriber (add_subscriber dbEmpty 1000 42 "u" "f" "l" 0 0 3).1 42 =
        some row ∧
      row.subscription_start = 1000 ∧
      row.subscription_end = 1000 + 0 * 86400 + 0 * 3600 + 3 * 60 ∧
      row.subscription_start < row.subscription_end :=
  ⟨by norm_num, grant_pos_duration_window dbEmpty 1000 42 "u" "f" "l" 0 0 3 (by norm_num)⟩

/-- C1 counterexample: a zero-duration grant inserts the fixed final-countdown
entry with due time `now - 5`, which is not after `now`, so the claim that
every inserted entry has dueAt > now fails at this input. -/
theorem grant_zero_duration_past_entry :
    (add_subscriber dbEmpty 1000 42 "u" "f" "l" 0 0 0).1.notifications =
      [{ id := 0, user_id := 42, notification_type := "5_seconds",
         notification_date := 995, sent := false, sent_at := none }] ∧
    ¬((1000 : Int) < 995) := ⟨by decide, by decide⟩

/-- C1 (amended): for every grant whose total duration is positive (at least
one minute, the granularity of the operation), every notification row the
grant leaves for that user has due time strictly after `now`: the bucket
entries are filtered by `dueAt > now` and the unconditional final-countdown
entry at `validUntil - 5` seconds is then also in the future. -/
theorem grant_pos_duration_entries_future (db : DBState) (now user_id : Int)
    (username first_name last_name : String) (days hours minutes : Int)
    (h : 1 ≤ days * 1440 + hours * 60 + minutes) :
    ∀ n ∈ (add_subscriber db now user_id username first_name last_name
        days hours minutes).1.notifications,
      n.user_id = user_id → now < n.notification_date := by
  intro n hn hu
  simp only [add_subscriber] at hn
  rcases List.mem_append.mp hn with hk | hf
  · have h2 := (List.mem_filter.mp hk).2
    rw [hu] at h2
    simp at h2
  · obtain ⟨h1, h2, h3⟩ := mem_planNotificationsFor hf
    rcases h3 with he | hgt
    · rw [he]; omega
    · exact hgt

/-- C1 witness: all entries of a three-minute grant at time 1000 are due
strictly after 1000. -/
theorem grant_pos_duration_entries_future_witness :
    (1 : Int) ≤ 0 * 1440 + 0 * 60 + 3 ∧
    ∀ n ∈ (add_subscriber dbEmpty 1000 42 "u" "f" "l" 0 0 3).1.notifications,
      n.user_id = 42 → (1000 : Int) < n.notification_date :=
  ⟨by norm_num,
   grant_pos_duration_entries_future dbEmpty 1000 42 "u" "f" "l" 0 0 3 (by norm_num)⟩

/-- C2 counterexample: a grant deletes the subscriber's already-sent reminder
entries as well (database.py:161 deletes without a `sent = FALSE` filter), so
after a grant the subscriber's sent entries are not those sent before. -/
theorem grant_erases_sent_history :
    dbB.notifications.filter (fun n => n.sent) = [sentNote42] ∧
    (add_subscriber dbB 1000 42 "u" "f" "l" 1 0 0).1.notifications.filter
      (fun n => n.sent) = [] := ⟨by decide, by decide⟩

/-- C2 (amended): an extend pass deletes only the subscriber's unsent entries,
so the sent entries of the whole ledger are exactly those sent before; a grant
pass instead deletes all of the subscriber's entries, sent included, leaving
the subscriber with no sent entries; and under both passes the entries of
every other subscriber (sent and unsent alike) are untouched. -/
theorem replanning_and_sent_history (db : DBState) (now user_id : Int)
    (username first_name last_name : String) (days hours minutes : Int) :
    ((extend_subscription db now user_id days hours minutes).1.notifications.filter
        (fun n => n.sent) = db.notifications.filter (fun n => n.sent)) ∧
    ((add_subscriber db now user_id username first_name last_name
        days hours minutes).1.notifications.filter
        (fun n => n.sent && n.user_id == user_id) = []) ∧
    ((add_subscriber db now user_id username first_name last_name
        days hours minutes).1.notifications.filter (fun n => n.user_id != user_id) =
      db.notifications.filter (fun n => n.user_id != user_id)) ∧
    ((extend_subscription db now user_id days hours minutes).1.notifications.filter
        (fun n => n.user_id != user_id) =
      db.notifications.filter (fun n => n.user_id != user_id)) := by
  refine ⟨?_, ?_, ?_, ?_⟩
  · unfold extend_subscription
    cases hf : db.subscribers.find? (fun r => r.user_id == user_id) with
    | none => rfl
    | some row =>
      dsimp only
      rw [List.filter_append, planNotificationsFor_no_sent, List.append_nil,
        List.filter_filter]
      congr 1
      funext n
      cases hs : n.sent <;> simp [hs]
  · simp only [add_subscriber]
    rw [List.filter_append, List.append_eq_nil]
    constructor
    · rw [List.filter_eq_nil_iff]
      intro n hn
      have h2 := (List.mem_filter.mp hn).2
      simp only [bne_iff_ne, ne_eq] at h2
      simp [h2]
    · rw [List.filter_eq_nil_iff]
      intro n hn
      simp [(mem_planNotificationsFor hn).2.1]
  · simp only [add_subscriber]
    rw [List.filter_append, List.filter_filter]
    have h2 : (planNotificationsFor user_id now
        (now + days * 86400 + hours * 3600 + minutes * 60)
        ((days * 1440 + hours * 60 + minutes : Int) : ℚ)
        db.next_notif_id).filter (fun n => n.user_id != user_id) = [] := by
      rw [List.filter_eq_nil_iff]
      intro n hn
      simp [(mem_planNotificationsFor hn).1]
    rw [h2, List.append_nil]
    congr 1
    funext n
    exact Bool.and_self _
  · unfold extend_subscription
    cases hf : db.subscribers.find? (fun r => r.user_id == user_id) with
    | none => rfl
    | some row =>
      dsimp only
      rw [List.filter_append, planNotificationsFor_own_user, List.append_nil,
        List.filter_filter]
      congr 1
      funext n
      cases hu : n.user_id == user_id <;> simp [bne, hu]

theorem get_subscriber_after_extend (db : DBState) (now user_id : Int)
    (days hours minutes : Int) (row : Subscriber)
    (hf : db.subscribers.find? (fun r => r.user_id == user_id) = some row) :
    get_subscriber (extend_subscription db now user_id days hours minutes).1 user_id =
      some { row with
             subscription_end :=
               row.subscription_end + days * 86400 + hours * 3600 + minutes * 60,
             status := "active", updated_at := now } := by
  unfold get_subscriber extend_subscription
  rw [hf]
  dsimp only
  rw [find?_map_pres _ _ (fun r => by by_cases h : r.user_id == user_id <;> simp [h])]
  rw [hf, Option.map_some', if_pos (List.find?_some hf)]

/-- C5: for an existing subscriber, extend adds the delta to the CURRENT
`subscription_end` (not to `now`), forces the status back to "active" even if
it was "expired", and replans the ledger from the total
`new_end - original subscription_start` (converted to minutes by division by
60), as witnessed by the exact fresh batch appended after the unsent entries
are cleared. -/
theorem extend_adds_to_current_end (db : DBState) (now user_id : Int)
    (days hours minutes : Int) (row : Subscriber)
    (hf : db.subscribers.find? (fun r => r.user_id == user_id) = some row) :
    (extend_subscription db now user_id days hours minutes).2 = true ∧
    get_subscriber (extend_subscription db now user_id days hours minutes).1 user_id =
      some { row with
             subscription_end :=
               row.subscription_end + days * 86400 + hours * 3600 + minutes * 60,
             status := "active", updated_at := now } ∧
    (extend_subscription db now user_id days hours minutes).1.notifications =
      db.notifications.filter (fun n => !(n.user_id == user_id && n.sent == false)) ++
        planNotificationsFor user_id now
          (row.subscription_end + days * 86400 + hours * 3600 + minutes * 60)
          (((row.subscription_end + days * 86400 + hours * 3600 + minutes * 60
              - row.subscription_start : Int) : ℚ) / 60)
          db.next_notif_id := by
  refine ⟨?_, get_subscriber_after_extend db now user_id days hours minutes row hf, ?_⟩
  · unfold extend_subscription
    rw [hf]
  · unfold extend_subscription
    rw [hf]

/-- C5 witness: the spec's round-trip — a one-day subscriber extended by two
hours gets `new validUntil = old validUntil + 2h` and is replanned from the
total window. -/
theorem extend_adds_to_current_end_witness :
    dbA.subscribers.find? (fun r => r.user_id == 42) = some subA ∧
    ((extend_subscription dbA 1000 42 0 2 0).2 = true ∧
      get_subscriber (extend_subscription dbA 1000 42 0 2 0).1 42 =
        some { subA with
               subscription_end := subA.subscription_end + 0 * 86400 + 2 * 3600 + 0 * 60,
               status := "active", updated_at := 1000 } ∧
      (extend_subscription dbA 1000 42 0 2 0).1.notifications =
        dbA.notifications.filter (fun n => !(n.user_id == 42 && n.sent == false)) ++
          planNotificationsFor 42 1000
            (subA.subscription_end + 0 * 86400 + 2 * 3600 + 0 * 60)
            (((subA.subscription_end + 0 * 86400 + 2 * 3600 + 0 * 60
                - subA.subscription_start : Int) : ℚ) / 60)
            dbA.next_notif_id) :=
  ⟨by decide, extend_adds_to_current_end dbA 1000 42 0 2 0 subA (by decide)⟩

theorem statusOf_update (db : DBState) (now u : Int) (s : String) (v : Int) :
    statusOf (update_subscriber_status db now u s).1 v =
      if v = u then (statusOf db v).map (fun _ => s) else statusOf db v := by
  unfold statusOf get_subscriber update_subscriber_status
  dsimp only
  rw [find?_map_pres _ _ (fun r => by by_cases h : r.user_id == u <;> simp [h])]
  cases hf : db.subscribers.find? (fun r => r.user_id == v) with
  | none => cases h : decide (v = u) <;> simp [of_decide_eq_true, h]
  | some r0 =>
    have hv : r0.user_id = v := by simpa using List.find?_some hf
    by_cases hvu : v = u
    · rw [if_pos hvu, Option.map_some', Option.map_some', Option.map_some',
        if_pos (by simp [hv, hvu])]
      rfl
    · rw [if_neg hvu, Option.map_some', if_neg (by simp [hv, hvu])]

theorem expiry_fold_expired (kick : Int → Option Bool) (now : Int)
    (L : List Subscriber) (st : DBState) (u : Int)
    (h : statusOf (L.foldl (expiryStep kick now) st) u = some "expired") :
    statusOf st u = some "expired" ∨ kick u = some true := by
  induction L generalizing st with
  | nil => exact Or.inl h
  | cons sub rest ih =>
    rw [List.foldl_cons] at h
    rcases ih _ h with h' | h'
    · unfold expiryStep at h'
      by_cases hle : sub.subscription_end ≤ now
      · rw [if_pos hle] at h'
        cases hk : kick sub.user_id with
        | none => rw [hk] at h'; exact Or.inl h'
        | some b =>
          cases b with
          | false => rw [hk] at h'; exact Or.inl h'
          | true =>
            rw [hk] at h'
            rw [statusOf_update] at h'
            by_cases hvu : u = sub.user_id
            · exact Or.inr (hvu ▸ hk)
            · rw [if_neg hvu] at h'
              exact Or.inl h'
      · rw [if_neg hle] at h'
        exact Or.inl h'
    · exact Or.inr h'

theorem expiry_fold_active (kick : Int → Option Bool) (now : Int)
    (L : List Subscriber) (st : DBState) (u : Int)
    (hs : statusOf st u = some "active") (hk : kick u ≠ some true) :
    statusOf (L.foldl (expiryStep kick now) st) u = some "active" := by
  induction L generalizing st with
  | nil => exact hs
  | cons sub rest ih =>
    rw [List.foldl_cons]
    apply ih
    unfold expiryStep
    by_cases hle : sub.subscription_end ≤ now
    · rw [if_pos hle]
      cases hku : kick sub.user_id with
      | none => exact hs
      | some b =>
        cases b with
        | false => exact hs
        | true =>
          rw [statusOf_update]
          rw [if_neg (fun hvu => hk (by rw [hvu]; exact hku))]
          exact hs
    · rw [if_neg hle]
      exact hs

/-- C3: one expiry sweep produces status "expired" for a user only if the user
was already expired or the revoke call reported success for them, and a user
recorded "active" whose revoke call does not report success is still "active"
after the sweep — so the sweep never records "expired" without a successful
revocation. -/
theorem expired_only_after_revoke (db : DBState) (now : Int)
    (kick : Int → Option Bool) (u : Int) :
    (statusOf (check_expired_subscriptions db now kick) u = some "expired" →
      statusOf db u = some "expired" ∨ kick u = some true) ∧
    (statusOf db u = some "active" → kick u ≠ some true →
      statusOf (check_expired_subscriptions db now kick) u = some "active") := by
  constructor
  · intro h
    exact expiry_fold_expired kick now _ db u h
  · intro hs hk
    exact expiry_fold_active kick now _ db u hs hk

/-- C3 witness: a past-due active subscriber whose revoke call fails is still
active after the sweep. -/
theorem expired_only_after_revoke_witness :
    statusOf dbExp 5 = some "active" ∧ kickFail 5 ≠ some true ∧
    statusOf (check_expired_subscriptions dbExp 100 kickFail) 5 = some "active" :=
  ⟨by decide, by decide,
   (expired_only_after_revoke dbExp 100 kickFail 5).2 (by decide) (by decide)⟩

theorem markOne_markOne (i : Nat) (now : Int) (n : Notification) :
    markOne i now (markOne i now n) = markOne i now n := by
  by_cases h : (n.id == i) = true <;> simp [markOne, h]

theorem markFn_markOne (ds : List Nat) (now : Int) (i : Nat) (n : Notification) :
    markFn ds now (markOne i now n) = markFn (i :: ds) now n := by
  by_cases h : n.id = i
  · subst h
    by_cases hc : ds.contains n.id <;> simp [markOne, markFn, List.contains_cons, hc]
  · simp [markOne, markFn, List.contains_cons, h]

theorem deliverStep_subscribers (known : String → Bool) (sendOk : Nat → Bool)
    (now : Int) (st : DBState) (m : Notification) :
    (deliverStep known sendOk now st m).1.subscribers = st.subscribers := by
  unfold deliverStep
  cases get_subscriber st m.user_id with
  | none => rfl
  | some _ =>
    by_cases hr : resolvable known m.notification_type = true
    · by_cases hok : sendOk m.id = true <;> simp [hr, hok, mark_notification_sent]
    · simp [hr]

theorem deliverList_char (known : String → Bool) (sendOk : Nat → Bool) (now : Int)
    (ns : List Notification) (st : DBState) :
    (deliverList known sendOk now ns st).1.subscribers = st.subscribers ∧
    (deliverList known sendOk now ns st).1.logs = st.logs ∧
    (deliverList known sendOk now ns st).1.next_notif_id = st.next_notif_id ∧
    (deliverList known sendOk now ns st).1.notifications =
      st.notifications.map (markFn (deliverList known sendOk now ns st).2 now) := by
  induction ns generalizing st with
  | nil =>
    refine ⟨rfl, rfl, rfl, ?_⟩
    show st.notifications = st.notifications.map (markFn [] now)
    conv_lhs => rw [← List.map_id st.notifications]
    exact List.map_congr_left (fun a _ => by simp [markFn])
  | cons n rest ih =>
    simp only [deliverList]
    unfold deliverStep
    cases hg : get_subscriber st n.user_id with
    | none =>
      dsimp only
      simpa using ih st
    | some r =>
      by_cases hr : resolvable known n.notification_type = true
      · by_cases hok : sendOk n.id = true
        · rw [if_pos hr, if_pos hok]
          dsimp only
          obtain ⟨ihs, ihl, ihn, ihnot⟩ := ih (mark_notification_sent st now n.id)
          refine ⟨ihs, ihl, ihn, ?_⟩
          rw [ihnot]
          show (st.notifications.map (markOne n.id now)).map _ = _
          rw [List.map_map]
          simp only [Option.toList_some, List.cons_append, List.nil_append]
          exact List.map_congr_left (fun a _ => markFn_markOne _ now n.id a)
        · rw [if_pos hr, if_neg hok]
          dsimp only
          simpa using ih st
      · rw [if_neg hr]
        dsimp only
        simpa using ih st

theorem deliverList_sendOk (known : String → Bool) (sendOk : Nat → Bool) (now : Int)
    (ns : List Notification) (st : DBState) :
    ∀ i ∈ (deliverList known sendOk now ns st).2, sendOk i = true := by
  induction ns generalizing st with
  | nil => intro i hi; simp [deliverList] at hi
  | cons n rest ih =>
    intro i hi
    simp only [deliverList] at hi
    rcases List.mem_append.mp hi with h1 | h2
    · unfold deliverStep at h1
      cases hg : get_subscriber st n.user_id with
      | none => rw [hg] at h1; simp at h1
      | some r =>
        rw [hg] at h1
        by_cases hr : resolvable known n.notification_type = true
        · rw [if_pos hr] at h1
          by_cases hok : sendOk n.id = true
          · rw [if_pos hok] at h1
            simp only [Option.toList_some, List.mem_singleton] at h1
            rw [h1]
            exact hok
          · rw [if_neg hok] at h1
            simp at h1
        · rw [if_neg hr] at h1
          simp at h1
    · exact ih _ i h2

theorem deliverList_complete (known : String → Bool) (sendOk : Nat → Bool) (now : Int)
    (ns : List Notification) (st : DBState) (n : Notification) (hn : n ∈ ns)
    (hsub : (get_subscriber st n.user_id).isSome = true)
    (hres : resolvable known n.notification_type = true)
    (hok : sendOk n.id = true) :
    n.id ∈ (deliverList known sendOk now ns st).2 := by
  induction ns generalizing st with
  | nil => cases hn
  | cons m rest ih =>
    simp only [deliverList]
    rcases List.mem_cons.mp hn with rfl | hmem
    · unfold deliverStep
      cases hg : get_subscriber st n.user_id with
      | none => rw [hg] at hsub; simp at hsub
      | some r =>
        rw [if_pos hres, if_pos hok]
        dsimp only
        exact List.mem_append_left _ (by simp)
    · apply List.mem_append_right
      apply ih (deliverStep known sendOk now st m).1 hmem
      unfold get_subscriber at hsub ⊢
      rw [deliverStep_subscribers]
      exact hsub

theorem deliverList_noop (known : String → Bool) (sendOk : Nat → Bool) (now : Int)
    (ns : List Notification) (st : DBState)
    (h : ∀ n ∈ ns, (get_subscriber st n.user_id).isSome = true →
      resolvable known n.notification_type = true → sendOk n.id = false) :
    deliverList known sendOk now ns st = (st, []) := by
  induction ns with
  | nil => rfl
  | cons n rest ih =>
    have hstep : deliverStep known sendOk now st n = (st, none) := by
      unfold deliverStep
      cases hg : get_subscriber st n.user_id with
      | none => rfl
      | some r =>
        by_cases hr : resolvable known n.notification_type = true
        · have hok := h n (List.mem_cons_self _ _) (by rw [hg]; rfl) hr
          rw [if_pos hr, if_neg (by rw [hok]; exact Bool.false_ne_true)]
        · rw [if_neg hr]
    simp only [deliverList]
    rw [hstep, ih (fun m hm => h m (List.mem_cons_of_mem _ hm))]
    rfl

theorem mem_pending (db : DBState) (now : Int) (n : Notification) :
    n ∈ get_pending_notifications db now ↔
      n ∈ db.notifications ∧ n.sent = false ∧ n.notification_date ≤ now ∧
        db.subscribers.any (fun r => r.user_id == n.user_id) = true := by
  unfold get_pending_notifications
  rw [List.mem_filter]
  simp [and_assoc]

/-- C4: a notification sweep marks entries sent only for ids whose delivery
call succeeded (every delivered id has `sendOk = true`, and the ledger after
the sweep is exactly the old ledger with the delivered ids flagged); an entry
whose delivery throws keeps `sent = false` and is selected again by the next
sweep at the same clock. -/
theorem sweep_marks_only_after_send (db : DBState) (now : Int)
    (known : String → Bool) (sendOk : Nat → Bool) :
    (∀ i ∈ (check_notifications db now known sendOk).2, sendOk i = true) ∧
    (check_notifications db now known sendOk).1.notifications =
      db.notifications.map (markFn (check_notifications db now known sendOk).2 now) ∧
    (∀ n ∈ get_pending_notifications db now, sendOk n.id = false →
      n ∈ get_pending_notifications (check_notifications db now known sendOk).1 now) := by
  simp only [check_notifications]
  obtain ⟨hsub, hlog, hnid, hnot⟩ :=
    deliverList_char known sendOk now (get_pending_notifications db now) db
  refine ⟨deliverList_sendOk known sendOk now _ db, hnot, ?_⟩
  intro n hp hok
  obtain ⟨hmem, hsent, hdate, hany⟩ := (mem_pending db now n).mp hp
  have hnotin : (deliverList known sendOk now
      (get_pending_notifications db now) db).2.contains n.id = false := by
    cases hc : (deliverList known sendOk now
        (get_pending_notifications db now) db).2.contains n.id
    · rfl
    · exfalso
      have hmm : n.id ∈ (deliverList known sendOk now
          (get_pending_notifications db now) db).2 :=
        List.elem_iff.mp hc
      have := deliverList_sendOk known sendOk now (get_pending_notifications db now)
        db n.id hmm
      rw [hok] at this
      exact Bool.false_ne_true this
  have hfix : markFn (deliverList known sendOk now
      (get_pending_notifications db now) db).2 now n = n := by
    unfold markFn
    rw [if_neg (by rw [hnotin]; exact Bool.false_ne_true)]
  rw [mem_pending]
  refine ⟨?_, hsent, hdate, ?_⟩
  · rw [hnot, ← hfix]
    exact List.mem_map_of_mem _ hmem
  · show ((deliverList known sendOk now
        (get_pending_notifications db now) db).1.subscribers.any
      (fun r => r.user_id == n.user_id)) = true
    rw [show (deliverList known sendOk now
        (get_pending_notifications db now) db).1.subscribers =
      db.subscribers from hsub]
    exact hany

/-- C4 witness: a due entry whose delivery throws is still selected by the
next sweep. -/
theorem sweep_marks_only_after_send_witness :
    noteDue ∈ get_pending_notifications dbDue 100 ∧ sendFail noteDue.id = false ∧
    noteDue ∈ get_pending_notifications
      (check_notifications dbDue 100 knownAll sendFail).1 100 :=
  ⟨by decide, by decide,
   (sweep_marks_only_after_send dbDue 100 knownAll sendFail).2.2 noteDue
     (by decide) (by decide)⟩

/-- C8 counterexample: re-marking an entry whose sent flag is already true is
not a no-op on that entry — `mark_notification_sent` refreshes `sent_at` with
the current clock (database.py:330-331 sets both columns unconditionally), so
marking `noteSent` (sent at 0) again at time 7 changes the row. -/
theorem remark_changes_sent_at :
    noteSent.sent = true ∧
    (mark_notification_sent dbMarked 7 0).notifications ≠ dbMarked.notifications :=
  ⟨by decide, by decide⟩

/-- C8 (amended): re-marking an already-marked entry at the same clock is a
complete no-op; marking always leaves the sent flag true exactly on matching
ids and never clears it (the flag after `markOne` is the old flag or-ed with
the id match, so an already-true flag stays true and only `sent_at` can
change); and a second notification sweep at the same clock is a no-op: it
delivers nothing and leaves the state unchanged, so each due entry is
delivered at most once. -/
theorem mark_idem_and_second_sweep_noop (db : DBState) (now : Int)
    (known : String → Bool) (sendOk : Nat → Bool) (i : Nat) (n : Notification) :
    mark_notification_sent (mark_notification_sent db now i) now i =
      mark_notification_sent db now i ∧
    (markOne i now n).sent = (n.sent || n.id == i) ∧
    check_notifications (check_notifications db now known sendOk).1 now known sendOk =
      ((check_notifications db now known sendOk).1, []) := by
  refine ⟨?_, ?_, ?_⟩
  · unfold mark_notification_sent
    congr 1
    rw [List.map_map]
    exact List.map_congr_left (fun a _ => markOne_markOne i now a)
  · by_cases h : (n.id == i) = true <;> simp [markOne, h]
  · simp only [check_notifications]
    obtain ⟨hsub, hlog, hnid, hnot⟩ :=
      deliverList_char known sendOk now (get_pending_notifications db now) db
    apply deliverList_noop
    intro m hm hms hmr
    cases hoo : sendOk m.id with
    | false => rfl
    | true =>
      exfalso
      obtain ⟨hmem1, hsent1, hdate1, hany1⟩ :=
        (mem_pending (deliverList known sendOk now
          (get_pending_notifications db now) db).1 now m).mp hm
      rw [hnot] at hmem1
      obtain ⟨m0, hm0mem, hm0eq⟩ := List.mem_map.mp hmem1
      have hnc : (deliverList known sendOk now
          (get_pending_notifications db now) db).2.contains m0.id = false := by
        cases hc : (deliverList known sendOk now
            (get_pending_notifications db now) db).2.contains m0.id
        · rfl
        · exfalso
          unfold markFn at hm0eq
          rw [if_pos hc] at hm0eq
          rw [← hm0eq] at hsent1
          simp at hsent1
      have hmeq : m = m0 := by
        unfold markFn at hm0eq
        rw [if_neg (by rw [hnc]; exact Bool.false_ne_true)] at hm0eq
        exact hm0eq.symm
      have hpdb : m ∈ get_pending_notifications db now := by
        rw [mem_pending]
        refine ⟨hmeq ▸ hm0mem, hsent1, hdate1, ?_⟩
        rw [hsub] at hany1
        exact hany1
      have hms' : (get_subscriber db m.user_id).isSome = true := by
        unfold get_subscriber at hms ⊢
        rw [hsub] at hms
        exact hms
      have hin := deliverList_complete known sendOk now
        (get_pending_notifications db now) db m hpdb hms' hmr hoo
      have hct : (deliverList known sendOk now
          (get_pending_notifications db now) db).2.contains m.id = true :=
        List.elem_iff.mpr hin
      rw [hmeq] at hct
      rw [hnc] at hct
      exact Bool.false_ne_true hct
